import Mathlib

/-!
Verification of the Deribit options data collector (collector.py).

The embedding models the collector's pure data flow. Upstream JSON values are
rational numbers; an absent dictionary key is Option.none. Remote calls take
the remote outcome as an argument (Except for a raised transport exception).
The partition file for one (currency, day) is modelled as an explicit state
threaded through save_to_parquet, and the partition directory as a list of
(date, content) pairs enumerated by load_data.
-/

namespace Collector

/-- One entry of the get_instruments result list (collector.py lines 96-113):
the fields of an instrument that collect_options_data reads. -/
structure Instrument where
  instrument_name : String
  expiration_timestamp : Nat
  strike : ℚ
  option_type : String
deriving DecidableEq

/-- The optional greeks sub-dictionary of a get_order_book result
(lines 123-127); every field may be absent. -/
structure Greeks where
  delta : Option ℚ := none
  gamma : Option ℚ := none
  vega : Option ℚ := none
  theta : Option ℚ := none
  rho : Option ℚ := none
deriving DecidableEq

/-- The optional stats sub-dictionary of a get_order_book result (line 136). -/
structure Stats where
  volume : Option ℚ := none
deriving DecidableEq

/-- The result dictionary of a get_order_book response (lines 116-140).
A key the upstream did not report is none. -/
structure Orderbook where
  mark_price : Option ℚ := none
  last_price : Option ℚ := none
  best_bid_price : Option ℚ := none
  best_ask_price : Option ℚ := none
  greeks : Option Greeks := none
  mark_iv : Option ℚ := none
  bid_iv : Option ℚ := none
  ask_iv : Option ℚ := none
  open_interest : Option ℚ := none
  stats : Option Stats := none
  underlying_price : Option ℚ := none
  underlying_index : Option String := none
deriving DecidableEq

/-- Python truthiness of an optional numeric dictionary entry, as used on
lines 118-120: an absent key gives None (falsy) and a present 0 is falsy. -/
def truthyQ : Option ℚ → Bool
  | none => false
  | some q => q != 0

/-- Python truthiness of the orderbook dictionary itself, as used by the
check on line 107: None is falsy and an empty dictionary is falsy; a
dictionary with at least one reported field is truthy. -/
def Orderbook.truthy (ob : Orderbook) : Bool :=
  ob.mark_price.isSome || ob.last_price.isSome || ob.best_bid_price.isSome ||
  ob.best_ask_price.isSome || ob.greeks.isSome || ob.mark_iv.isSome ||
  ob.bid_iv.isSome || ob.ask_iv.isSome || ob.open_interest.isSome ||
  ob.stats.isSome || ob.underlying_price.isSome || ob.underlying_index.isSome

/-- The flattened record assembled on lines 108-141 and persisted to the
parquet partition. -/
structure Record where
  timestamp : Nat
  instrument_name : String
  expiration_timestamp : Nat
  strike : ℚ
  option_type : String
  mark_price : Option ℚ
  last_price : Option ℚ
  bid_price : Option ℚ
  ask_price : Option ℚ
  mid_price : Option ℚ
  delta : Option ℚ
  gamma : Option ℚ
  vega : Option ℚ
  theta : Option ℚ
  rho : Option ℚ
  mark_iv : Option ℚ
  bid_iv : Option ℚ
  ask_iv : Option ℚ
  open_interest : Option ℚ
  volume_24h : Option ℚ
  underlying_price : Option ℚ
  underlying_index : Option String
deriving DecidableEq

/-- The record literal of lines 108-141, translated field by field.
ob.get(k) is the Option field itself; the conditional expressions on
lines 118-120 test Python truthiness (absent or zero is falsy); the
two-level ob.get(k, empty dict).get(f) accesses are Option.bind. -/
def assembleRecord (timestamp : Nat) (inst : Instrument) (ob : Orderbook) : Record :=
  { timestamp := timestamp
    instrument_name := inst.instrument_name
    expiration_timestamp := inst.expiration_timestamp
    strike := inst.strike
    option_type := inst.option_type
    mark_price := ob.mark_price
    last_price := ob.last_price
    bid_price := if truthyQ ob.best_bid_price then ob.best_bid_price else none
    ask_price := if truthyQ ob.best_ask_price then ob.best_ask_price else none
    mid_price :=
      if truthyQ ob.best_bid_price && truthyQ ob.best_ask_price then
        some ((ob.best_bid_price.getD 0 + ob.best_ask_price.getD 0) / 2)
      else none
    delta := ob.greeks.bind  Greeks.delta
    gamma := ob.greeks.bind  Greeks.gamma
    vega := ob.greeks.bind  Greeks.vega
    theta := ob.greeks.bind  Greeks.theta
    rho := ob.greeks.bind  Greeks.rho
    mark_iv := ob.mark_iv
    bid_iv := ob.bid_iv
    ask_iv := ob.ask_iv
    open_interest := ob.open_interest
    volume_24h := ob.stats.bind  Stats.volume
    underlying_price := ob.underlying_price
    underlying_index := ob.underlying_index }

/-- A raised transport-level exception of a remote call: network failure,
an HTTP error status raised by raise_for_status, or a response body from
which the result key cannot be extracted. -/
inductive TransportError where
  | network
  | httpStatus (code : Nat)
  | malformed
deriving DecidableEq

/-- get_instruments, lines 39-63: performs the request and returns the
result list; every exception is caught, logged and absorbed by returning
the empty list. The remote outcome is passed as the argument. -/
def get_instruments (response : Except TransportError (List Instrument)) :
    List Instrument :=
  match response with
  | Except.ok instruments => instruments
  | Except.error _ => []

/-- get_orderbook, lines 65-84: returns the result dictionary, or None when
any exception was raised (caught and logged on lines 82-84). -/
def get_orderbook (response : Except TransportError Orderbook) : Option Orderbook :=
  match response with
  | Except.ok ob => some ob
  | Except.error _ => none

/-- The loop body of collect_options_data, lines 99-148: for each discovered
instrument, in discovery order, fetch the orderbook; when the fetch raised
(get_orderbook returned None) or the dictionary is falsy, no record is
appended and the loop continues; otherwise exactly one record is appended.
The per-instrument remote outcome is given by the fetch argument. -/
def collect_options_data (timestamp : Nat) (instruments : List Instrument)
    (fetch : Instrument → Except TransportError Orderbook) : List Record :=
  instruments.filterMap fun inst =>
    match get_orderbook (fetch inst) with
    | some ob => if ob.truthy then some (assembleRecord timestamp inst ob) else none
    | none => none

/-- Whether the fetch outcome for an instrument passes the line 107 check
and therefore produces a record. -/
def fetchHasData (fetch : Instrument → Except TransportError Orderbook)
    (inst : Instrument) : Bool :=
  match get_orderbook (fetch inst) with
  | some ob => ob.truthy
  | none => false

/-- A calendar date as year, month, day, the components datetime exposes. -/
structure DateYMD where
  y : Nat
  m : Nat
  d : Nat
deriving DecidableEq

/-- Calendar order on dates: lexicographic on (year, month, day). This is
how Python datetime objects compare on lines 225-227. -/
def dateLt (a b : DateYMD) : Prop :=
  a.y < b.y ∨ (a.y = b.y ∧ (a.m < b.m ∨ (a.m = b.m ∧ a.d < b.d)))

instance (a b : DateYMD) : Decidable (dateLt a b) := by
  unfold dateLt; infer_instance

/-- Non-strict calendar order, stated the way the code tests it: the file
is kept when it is not strictly earlier, respectively not strictly later. -/
def dateLe (a b : DateYMD) : Prop := ¬ dateLt b a

instance (a b : DateYMD) : Decidable (dateLe a b) := by
  unfold dateLe; infer_instance

/-- A date representable by Python datetime and rendered by strftime with
format string Y-m-d as exactly eight digits (four-digit zero-padded year). -/
def ValidDate (a : DateYMD) : Prop :=
  1 ≤ a.y ∧ a.y ≤ 9999 ∧ 1 ≤ a.m ∧ a.m ≤ 12 ∧ 1 ≤ a.d ∧ a.d ≤ 31

instance (a : DateYMD) : Decidable (ValidDate a) := by
  unfold ValidDate; infer_instance

/-- Big-endian fixed-width zero-padded decimal digit rendering, the digit
string strftime produces for a zero-padded numeric field of width k. -/
def padDigits : Nat → Nat → List Char
  | 0, _ => []
  | k + 1, n => Nat.digitChar (n / 10 ^ k) :: padDigits k (n % 10 ^ k)

/-- strftime with format Y then m then d (line 168): four-digit zero-padded
year, two-digit zero-padded month and day, eight characters in all. -/
def dateStr (a : DateYMD) : List Char :=
  padDigits 4 a.y ++ padDigits 2 a.m ++ padDigits 2 a.d

/-- The date part of the partition file name, as a string. -/
def dateString (a : DateYMD) : String := String.mk (dateStr a)

/-- get_daily_filename, lines 155-169: the partition file name for one
currency and date. The directory component is shared by every partition of
one store and does not affect relative name order, so the model keeps the
file name proper. -/
def get_daily_filename (currency : String) (a : DateYMD) : String :=
  currency ++ "_options_" ++ dateString a ++ ".parquet"

/-- State of the partition file of one (currency, day): its content, none
when the file does not exist, plus a fault flag making the next
read_parquet call raise, modelling an unreadable existing file. -/
structure FileSt where
  content : Option (List Record)
  readFails : Bool
deriving DecidableEq

/-- The storage fault of the append path: the existing partition file could
not be read back. -/
inductive StorageError where
  | unreadable
deriving DecidableEq

/-- save_to_parquet, lines 171-199, as a transformer of the partition file
state, mirroring the statement order of the source. Empty input returns
None immediately (lines 181-183) and touches nothing. When the file exists
it is read back first (line 189); a raising read propagates out before any
write statement is reached, so the state is returned unchanged. Otherwise
the merged existing-then-new content, or the new batch alone, is written
(line 196) and the file name is returned. -/
def save_to_parquet (currency : String) (today : DateYMD) (df : List Record)
    (s : FileSt) : Except StorageError (Option String) × FileSt :=
  if df.isEmpty then
    (Except.ok none, s)
  else
    match s.content with
    | some existing =>
        if s.readFails then
          (Except.error StorageError.unreadable, s)
        else
          (Except.ok (some (get_daily_filename currency today)),
           { s with content := some (existing ++ df) })
    | none =>
        (Except.ok (some (get_daily_filename currency today)),
         { s with content := some df })

/-- The comparison under which load_data enumerates partition files:
ascending lexicographic file-name order, as produced by Python sorted on
the glob result (line 212). -/
def fileLe (currency : String) (a b : DateYMD × List Record) : Bool :=
  decide (get_daily_filename currency a.1 ≤ get_daily_filename currency b.1)

/-- The per-file filter of lines 222-227: only applied when at least one
bound was given; a file is skipped when its embedded date is strictly
before start_date or strictly after end_date. For a valid date the stem
parsed back by strptime is the date itself, so the comparison is applied
to the partition date directly. -/
def keepFile (start_date end_date : Option DateYMD) (a : DateYMD) : Bool :=
  if start_date.isSome || end_date.isSome then
    (match start_date with
     | some s => decide (¬ dateLt a s)
     | none => true) &&
    (match end_date with
     | some e => decide (¬ dateLt e a)
     | none => true)
  else true

/-- load_data, lines 201-239: the partition directory holds one file per
date in store; the glob result is sorted lexicographically by file name,
files outside the optional date range are skipped, and the remaining
contents are concatenated in that order. An empty directory or an empty
selection yields the empty result, not an error. -/
def load_data (currency : String) (store : List (DateYMD × List Record))
    (start_date end_date : Option DateYMD) : List Record :=
  let files := store.mergeSort (fileLe currency)
  let kept := files.filter fun p => keepFile start_date end_date p.1
  kept.flatMap fun p => p.2

/-- A concrete instrument used to evaluate the record assembler. -/
def sampleInstrument : Instrument :=
  { instrument_name := "BTC-28JUN24-60000-C"
    expiration_timestamp := 1719561600000
    strike := 60000
    option_type := "call" }

/-- A snapshot whose best bid is reported as 0 and best ask as 1: both
sides present, the bid a valid zero price. -/
def obZeroBid : Orderbook :=
  { best_bid_price := some 0
    best_ask_price := some 1 }

/-- A concrete assembled record used to populate partition states. -/
def sampleRecord : Record :=
  assembleRecord 0 sampleInstrument obZeroBid

/-- A partition file state that exists but whose read will raise. -/
def badFile : FileSt :=
  { content := some [sampleRecord]
    readFails := true }

/-- A snapshot with both sides present and nonzero. -/
def obBoth : Orderbook :=
  { best_bid_price := some 2
    best_ask_price := some 4 }

/-- An instrument whose fetch will fail in the two-instrument scenario. -/
def instX : Instrument :=
  { instrument_name := "BTC-X"
    expiration_timestamp := 1719561600000
    strike := 50000
    option_type := "put" }

/-- An instrument whose fetch will succeed in the two-instrument scenario. -/
def instY : Instrument :=
  { instrument_name := "BTC-Y"
    expiration_timestamp := 1719561600000
    strike := 70000
    option_type := "call" }

/-- A remote outcome assignment where instX raises a network error and
every other instrument gets a populated orderbook. -/
def fetchXY : Instrument → Except TransportError Orderbook :=
  fun i =>
    if i.instrument_name = "BTC-X" then Except.error TransportError.network
    else Except.ok obBoth

/-! ## Order of digit strings and partition file names

Python sorted compares path strings lexicographically by code point, which
is the lexicographic order on their character lists. The lemmas below show
that on the fixed-width zero-padded digit strings produced by strftime this
order coincides with numeric order, and hence that partition file names of
one currency sort in calendar-date order. -/

theorem digitChar_lt_iff : ∀ a : Nat, a < 10 → ∀ b : Nat, b < 10 →
    (Nat.digitChar a < Nat.digitChar b ↔ a < b) := by decide

theorem digitChar_inj : ∀ a : Nat, a < 10 → ∀ b : Nat, b < 10 →
    (Nat.digitChar a = Nat.digitChar b ↔ a = b) := by decide

theorem charList_cons_lt_iff {a b : Char} {as bs : List Char} :
    (a :: as) < (b :: bs) ↔ a < b ∨ (a = b ∧ as < bs) := by
  constructor
  · intro h
    cases h with
    | cons h => exact Or.inr ⟨rfl, h⟩
    | rel h => exact Or.inl h
  · intro h
    rcases h with h | ⟨rfl, h⟩
    · exact List.Lex.rel h
    · exact List.Lex.cons h

theorem charList_append_lt_left (p : List Char) {as bs : List Char} :
    (p ++ as) < (p ++ bs) ↔ as < bs := by
  induction p with
  | nil => simp
  | cons c p ih => simpa [charList_cons_lt_iff, lt_irrefl c] using ih

theorem charList_append_lt_iff {as bs : List Char} (h : as.length = bs.length)
    (cs ds : List Char) :
    (as ++ cs) < (bs ++ ds) ↔ as < bs ∨ (as = bs ∧ cs < ds) := by
  induction as generalizing bs with
  | nil =>
    cases bs with
    | nil => simp [List.Lex.not_nil_right]
    | cons b bs => simp at h
  | cons a as ih =>
    cases bs with
    | nil => simp at h
    | cons b bs =>
      simp only [List.length_cons, Nat.add_right_cancel_iff] at h
      simp only [List.cons_append, charList_cons_lt_iff, ih h, List.cons.injEq]
      tauto

theorem padDigits_length (k n : Nat) : (padDigits k n).length = k := by
  induction k generalizing n with
  | zero => rfl
  | succ k ih => simp [padDigits, ih]

theorem padDigits_lt_iff (k : Nat) : ∀ m n : Nat, m < 10 ^ k → n < 10 ^ k →
    (padDigits k m < padDigits k n ↔ m < n) := by
  induction k with
  | zero =>
    intro m n hm hn
    simp only [pow_zero, Nat.lt_one_iff] at hm hn
    subst hm; subst hn
    simp [padDigits, List.Lex.not_nil_right]
  | succ k ih =>
    intro m n hm hn
    have hpow : 0 < 10 ^ k := Nat.pos_pow_of_pos k (by norm_num)
    have hm1 : m / 10 ^ k < 10 := by
      rw [Nat.div_lt_iff_lt_mul hpow]
      calc m < 10 ^ (k + 1) := hm
        _ = 10 * 10 ^ k := by ring
    have hn1 : n / 10 ^ k < 10 := by
      rw [Nat.div_lt_iff_lt_mul hpow]
      calc n < 10 ^ (k + 1) := hn
        _ = 10 * 10 ^ k := by ring
    have hm2 : m % 10 ^ k < 10 ^ k := Nat.mod_lt _ hpow
    have hn2 : n % 10 ^ k < 10 ^ k := Nat.mod_lt _ hpow
    simp only [padDigits, charList_cons_lt_iff,
      digitChar_lt_iff _ hm1 _ hn1, digitChar_inj _ hm1 _ hn1, ih _ _ hm2 hn2]
    constructor
    · rintro (h | ⟨heq, h⟩)
      · exact Nat.lt_of_div_lt_div h
      · have e1 := Nat.div_add_mod m (10 ^ k)
        have e2 := Nat.div_add_mod n (10 ^ k)
        rw [heq] at e1
        omega
    · intro h
      have hle : m / 10 ^ k ≤ n / 10 ^ k := Nat.div_le_div_right h.le
      rcases Nat.lt_or_ge (m / 10 ^ k) (n / 10 ^ k) with h1 | h1
      · exact Or.inl h1
      · have heq : m / 10 ^ k = n / 10 ^ k := le_antisymm hle h1
        refine Or.inr ⟨heq, ?_⟩
        have e1 := Nat.div_add_mod m (10 ^ k)
        have e2 := Nat.div_add_mod n (10 ^ k)
        rw [heq] at e1
        omega

theorem padDigits_inj {k m n : Nat} (hm : m < 10 ^ k) (hn : n < 10 ^ k)
    (h : padDigits k m = padDigits k n) : m = n := by
  rcases Nat.lt_trichotomy m n with h1 | h1 | h1
  · exact absurd (h ▸ (padDigits_lt_iff k m n hm hn).mpr h1) (lt_irrefl _)
  · exact h1
  · exact absurd (h ▸ (padDigits_lt_iff k n m hn hm).mpr h1) (lt_irrefl _)

theorem dateStr_lt_iff {a b : DateYMD} (ha : ValidDate a) (hb : ValidDate b) :
    (dateStr a < dateStr b ↔ dateLt a b) := by
  obtain ⟨hy1a, hy2a, hm1a, hm2a, hd1a, hd2a⟩ := ha
  obtain ⟨hy1b, hy2b, hm1b, hm2b, hd1b, hd2b⟩ := hb
  have hya : a.y < 10 ^ 4 := by omega
  have hyb : b.y < 10 ^ 4 := by omega
  have hma : a.m < 10 ^ 2 := by omega
  have hmb : b.m < 10 ^ 2 := by omega
  have hda : a.d < 10 ^ 2 := by omega
  have hdb : b.d < 10 ^ 2 := by omega
  unfold dateStr dateLt
  rw [List.append_assoc, List.append_assoc,
    charList_append_lt_iff (by rw [padDigits_length, padDigits_length]),
    charList_append_lt_iff (by rw [padDigits_length, padDigits_length]),
    padDigits_lt_iff 4 _ _ hya hyb, padDigits_lt_iff 2 _ _ hma hmb,
    padDigits_lt_iff 2 _ _ hda hdb]
  constructor
  · rintro (h | ⟨he, h | ⟨hem, h⟩⟩)
    · exact Or.inl h
    · exact Or.inr ⟨padDigits_inj hya hyb he, Or.inl h⟩
    · exact Or.inr ⟨padDigits_inj hya hyb he,
        Or.inr ⟨padDigits_inj hma hmb hem, h⟩⟩
  · rintro (h | ⟨he, h | ⟨hem, h⟩⟩)
    · exact Or.inl h
    · exact Or.inr ⟨by rw [he], Or.inl h⟩
    · exact Or.inr ⟨by rw [he], Or.inr ⟨by rw [hem], h⟩⟩

theorem get_daily_filename_lt_iff (c : String) {a b : DateYMD}
    (ha : ValidDate a) (hb : ValidDate b) :
    (get_daily_filename c a < get_daily_filename c b ↔ dateLt a b) := by
  rw [String.lt_iff_toList_lt]
  show (get_daily_filename c a).data < (get_daily_filename c b).data ↔ _
  unfold get_daily_filename dateString
  have h8 : (dateStr a).length = (dateStr b).length := by
    unfold dateStr
    simp [padDigits_length]
  simp only [String.data_append, List.append_assoc]
  rw [charList_append_lt_left, charList_append_lt_left]
  show dateStr a ++ _ < dateStr b ++ _ ↔ _
  rw [charList_append_lt_iff h8]
  constructor
  · rintro (h | ⟨-, h⟩)
    · exact (dateStr_lt_iff ha hb).mp h
    · exact absurd h (lt_irrefl _)
  · intro h
    exact Or.inl ((dateStr_lt_iff ha hb).mpr h)

theorem dateLt_irrefl (a : DateYMD) : ¬ dateLt a a := by
  unfold dateLt; omega

theorem dateLe_refl (a : DateYMD) : dateLe a a := dateLt_irrefl a

theorem get_daily_filename_le_dateLe (c : String) {a b : DateYMD}
    (ha : ValidDate a) (hb : ValidDate b)
    (h : get_daily_filename c a ≤ get_daily_filename c b) : dateLe a b := by
  intro hba
  have := (get_daily_filename_lt_iff c hb ha).mpr hba
  exact absurd h (not_le.mpr this)

/-! ## Claims -/

/-- C1, counterexample to the claim as stated: a snapshot reporting best
bid 0 and best ask 1 has both sides present, yet the assembled mid-price
is null rather than the arithmetic mean 1/2, because the line 120 guard
tests truthiness and a present 0 is falsy. -/
theorem C1_counterexample :
    obZeroBid.best_bid_price = some 0 ∧ obZeroBid.best_ask_price = some 1 ∧
    (assembleRecord 0 sampleInstrument obZeroBid).mid_price = none ∧
    (assembleRecord 0 sampleInstrument obZeroBid).mid_price ≠
      some (((0 : ℚ) + 1) / 2) := by
  refine ⟨rfl, rfl, ?_, ?_⟩ <;>
    simp [assembleRecord, obZeroBid, truthyQ]

/-- C1 as amended: the assembled mid-price equals (bid + ask) / 2 when
best bid and best ask are both present and nonzero; it is null when either
side is absent; and it is also null when either side is present with the
value 0, since the guard on line 120 treats a zero price like a missing
one. It is never a false zero computed from one side alone. -/
theorem C1_mid_price (t : Nat) (inst : Instrument) (ob : Orderbook) :
    (∀ bq aq : ℚ, ob.best_bid_price = some bq → ob.best_ask_price = some aq →
      bq ≠ 0 → aq ≠ 0 →
      (assembleRecord t inst ob).mid_price = some ((bq + aq) / 2)) ∧
    (ob.best_bid_price = none ∨ ob.best_ask_price = none →
      (assembleRecord t inst ob).mid_price = none) ∧
    (ob.best_bid_price = some 0 ∨ ob.best_ask_price = some 0 →
      (assembleRecord t inst ob).mid_price = none) := by
  refine ⟨?_, ?_, ?_⟩
  · intro bq aq hb ha hbq haq
    simp [assembleRecord, truthyQ, hb, ha, hbq, haq]
  · rintro (h | h) <;> simp [assembleRecord, truthyQ, h]
  · rintro (h | h) <;> simp [assembleRecord, truthyQ, h]

/-- Witness for C1: on a snapshot with bid 2 and ask 4 the mid-price is 3. -/
theorem C1_mid_price_witness :
    (assembleRecord 0 sampleInstrument obBoth).mid_price =
      some (((2 : ℚ) + 4) / 2) :=
  (C1_mid_price 0 sampleInstrument obBoth).1 2 4 rfl rfl
    (by norm_num) (by norm_num)

/-- C2, counterexample to the claim as stated: a best bid reported as the
valid price 0 is stored as null, not as zero, because line 118 tests
truthiness and 0 is falsy. -/
theorem C2_counterexample :
    obZeroBid.best_bid_price = some 0 ∧
    (assembleRecord 0 sampleInstrument obZeroBid).bid_price = none ∧
    (assembleRecord 0 sampleInstrument obZeroBid).bid_price ≠ some 0 := by
  refine ⟨rfl, ?_, ?_⟩ <;>
    simp [assembleRecord, obZeroBid, truthyQ]

/-- C2 as amended: record assembly preserves the absent/zero distinction on
every directly copied field (each is stored exactly as reported, null iff
absent upstream, zero stays zero), but on best bid and best ask the
truthiness guards of lines 118-119 coerce a present zero to null: those two
fields keep a present nonzero value and map absence to null, yet store a
present 0 as null. -/
theorem C2_field_preservation (t : Nat) (inst : Instrument) (ob : Orderbook) :
    ((assembleRecord t inst ob).mark_price = ob.mark_price ∧
     (assembleRecord t inst ob).last_price = ob.last_price ∧
     (assembleRecord t inst ob).delta = ob.greeks.bind  Greeks.delta ∧
     (assembleRecord t inst ob).gamma = ob.greeks.bind  Greeks.gamma ∧
     (assembleRecord t inst ob).vega = ob.greeks.bind  Greeks.vega ∧
     (assembleRecord t inst ob).theta = ob.greeks.bind  Greeks.theta ∧
     (assembleRecord t inst ob).rho = ob.greeks.bind  Greeks.rho ∧
     (assembleRecord t inst ob).mark_iv = ob.mark_iv ∧
     (assembleRecord t inst ob).bid_iv = ob.bid_iv ∧
     (assembleRecord t inst ob).ask_iv = ob.ask_iv ∧
     (assembleRecord t inst ob).open_interest = ob.open_interest ∧
     (assembleRecord t inst ob).volume_24h = ob.stats.bind  Stats.volume ∧
     (assembleRecord t inst ob).underlying_price = ob.underlying_price ∧
     (assembleRecord t inst ob).underlying_index = ob.underlying_index) ∧
    ((∀ q : ℚ, q ≠ 0 → ob.best_bid_price = some q →
        (assembleRecord t inst ob).bid_price = some q) ∧
     (ob.best_bid_price = none → (assembleRecord t inst ob).bid_price = none) ∧
     (ob.best_bid_price = some 0 →
        (assembleRecord t inst ob).bid_price = none)) ∧
    ((∀ q : ℚ, q ≠ 0 → ob.best_ask_price = some q →
        (assembleRecord t inst ob).ask_price = some q) ∧
     (ob.best_ask_price = none → (assembleRecord t inst ob).ask_price = none) ∧
     (ob.best_ask_price = some 0 →
        (assembleRecord t inst ob).ask_price = none)) := by
  refine ⟨?_, ⟨?_, ?_, ?_⟩, ?_, ?_, ?_⟩
  · exact ⟨rfl, rfl, rfl, rfl, rfl, rfl, rfl, rfl, rfl, rfl, rfl, rfl, rfl, rfl⟩
  · intro q hq hb
    simp [assembleRecord, truthyQ, hb, hq]
  · intro hb
    simp [assembleRecord, truthyQ, hb]
  · intro hb
    simp [assembleRecord, truthyQ, hb]
  · intro q hq ha
    simp [assembleRecord, truthyQ, ha, hq]
  · intro ha
    simp [assembleRecord, truthyQ, ha]
  · intro ha
    simp [assembleRecord, truthyQ, ha]

/-- Witness for C2: a present nonzero bid of 2 is stored as 2. -/
theorem C2_field_preservation_witness :
    (assembleRecord 0 sampleInstrument obBoth).bid_price = some 2 :=
  (C2_field_preservation 0 sampleInstrument obBoth).2.1.1 2 (by norm_num) rfl

/-- C3, counterexample to the claim as stated: on a network failure
get_instruments does not fail with a transport error; it returns the
ordinary empty list, the very value returned when the upstream reports
zero instruments, so the two outcomes coincide at the interface. -/
theorem C3_counterexample :
    get_instruments (Except.error TransportError.network) = [] ∧
    get_instruments (Except.ok ([] : List Instrument)) = [] :=
  ⟨rfl, rfl⟩

/-- C3 as amended: get_instruments absorbs every transport failure
(network, HTTP status, malformed body), logging it and returning the empty
list, and returns the upstream list on success; an empty result therefore
does not distinguish a discovery failure from a genuinely empty instrument
list. -/
theorem C3_get_instruments (r : Except TransportError (List Instrument)) :
    (∀ e : TransportError, r = Except.error e → get_instruments r = []) ∧
    (∀ l : List Instrument, r = Except.ok l → get_instruments r = l) := by
  constructor
  · rintro e rfl; rfl
  · rintro l rfl; rfl

/-- Witness for C3: a malformed-response failure yields the empty list. -/
theorem C3_get_instruments_witness :
    get_instruments (Except.error TransportError.malformed) = [] :=
  (C3_get_instruments (Except.error TransportError.malformed)).1
    TransportError.malformed rfl

/-- C4: appending batch B1 and then batch B2 to an initially absent
partition file leaves the file holding exactly B1 followed by B2, of
length the sum of the two batch lengths: nothing lost, nothing merged
away. -/
theorem C4_append_twice (c : String) (today : DateYMD) (B1 B2 : List Record)
    (h1 : B1 ≠ []) (h2 : B2 ≠ []) :
    ((save_to_parquet c today B2
        (save_to_parquet c today B1
          { content := none, readFails := false }).2).2).content
      = some (B1 ++ B2) ∧
    (B1 ++ B2).length = B1.length + B2.length := by
  have e1 : B1.isEmpty = false := by
    simpa [List.isEmpty_iff] using h1
  have e2 : B2.isEmpty = false := by
    simpa [List.isEmpty_iff] using h2
  constructor
  · simp [save_to_parquet, e1, e2]
  · simp

/-- Witness for C4 on concrete one- and two-record batches. -/
theorem C4_append_twice_witness :
    ((save_to_parquet "BTC" ⟨2024, 1, 15⟩ [sampleRecord, sampleRecord]
        (save_to_parquet "BTC" ⟨2024, 1, 15⟩ [sampleRecord]
          { content := none, readFails := false }).2).2).content
      = some ([sampleRecord] ++ [sampleRecord, sampleRecord]) ∧
    ([sampleRecord] ++ [sampleRecord, sampleRecord]).length =
      [sampleRecord].length + [sampleRecord, sampleRecord].length :=
  C4_append_twice "BTC" ⟨2024, 1, 15⟩ [sampleRecord]
    [sampleRecord, sampleRecord] (by simp) (by simp)

/-- C7: per-instrument failures produce no record and do not halt the
batch: the output never exceeds the input count; an instrument whose fetch
produced nothing contributes nothing while the instruments before and
after it are processed as usual; and in a two-instrument batch where X
fails and Y returns a truthy snapshot, the result is exactly the one
record assembled for Y. -/
theorem C7_partial_failures (t : Nat) :
    (∀ (instruments : List Instrument)
       (fetch : Instrument → Except TransportError Orderbook),
       (collect_options_data t instruments fetch).length ≤
         instruments.length) ∧
    (∀ (l1 l2 : List Instrument) (x : Instrument)
       (fetch : Instrument → Except TransportError Orderbook),
       get_orderbook (fetch x) = none →
       collect_options_data t (l1 ++ x :: l2) fetch =
         collect_options_data t l1 fetch ++ collect_options_data t l2 fetch) ∧
    (∀ (X Y : Instrument) (e : TransportError) (ob : Orderbook)
       (fetch : Instrument → Except TransportError Orderbook),
       fetch X = Except.error e → fetch Y = Except.ok ob → ob.truthy = true →
       collect_options_data t [X, Y] fetch = [assembleRecord t Y ob]) := by
  refine ⟨?_, ?_, ?_⟩
  · intro instruments fetch
    exact List.length_filterMap_le _ _
  · intro l1 l2 x fetch h
    unfold collect_options_data
    rw [List.filterMap_append, List.filterMap_cons, h]
  · intro X Y e ob fetch hX hY htr
    simp [collect_options_data, get_orderbook, hX, hY, htr]

/-- Witness for C7: the concrete batch where instX fails by network error
and instY returns a populated snapshot yields exactly instY's record. -/
theorem C7_partial_failures_witness :
    collect_options_data 0 [instX, instY] fetchXY =
      [assembleRecord 0 instY obBoth] :=
  (C7_partial_failures 0).2.2 instX instY TransportError.network obBoth
    fetchXY rfl rfl rfl

/-- C8: save_to_parquet called with an empty batch returns no file handle,
after only logging, and leaves the partition file state, existing content
included, completely unchanged. -/
theorem C8_append_empty (c : String) (today : DateYMD) (s : FileSt) :
    save_to_parquet c today [] s = (Except.ok none, s) := by
  simp [save_to_parquet]

/-- C9: whenever save_to_parquet ends in a storage error, raised while
reading back the existing partition file, the partition state is returned
exactly as it was: the file is never truncated or rewritten before the
merged content is in hand, because the write statement comes after the
read and is never reached. -/
theorem C9_read_error_preserves (c : String) (today : DateYMD)
    (df : List Record) (s : FileSt) (err : StorageError)
    (h : (save_to_parquet c today df s).1 = Except.error err) :
    (save_to_parquet c today df s).2 = s := by
  by_cases hdf : df.isEmpty
  · simp [save_to_parquet, hdf] at h
  · rcases s with ⟨co, rf⟩
    cases co with
    | none => simp [save_to_parquet, hdf] at h
    | some ex =>
      cases rf with
      | false => simp [save_to_parquet, hdf] at h
      | true => simp [save_to_parquet, hdf]

/-- Witness for C9: an unreadable existing partition file survives a
failed append of one record untouched. -/
theorem C9_read_error_preserves_witness :
    (save_to_parquet "BTC" ⟨2024, 1, 15⟩ [sampleRecord] badFile).2 = badFile :=
  C9_read_error_preserves "BTC" ⟨2024, 1, 15⟩ [sampleRecord] badFile
    StorageError.unreadable rfl

/-- C10: the records of one cycle come out in discovery order: the list of
output instrument names equals the input name sequence restricted to the
instruments whose fetch returned data, and is in particular an ordered
sub-sequence of the input name sequence. -/
theorem C10_output_order (t : Nat) (instruments : List Instrument)
    (fetch : Instrument → Except TransportError Orderbook) :
    ((collect_options_data t instruments fetch).map Record.instrument_name =
      (instruments.filter (fetchHasData fetch)).map
        Instrument.instrument_name) ∧
    List.Sublist
      ((collect_options_data t instruments fetch).map Record.instrument_name)
      (instruments.map Instrument.instrument_name) := by
  have key :
      (collect_options_data t instruments fetch).map Record.instrument_name =
        (instruments.filter (fetchHasData fetch)).map
          Instrument.instrument_name := by
    induction instruments with
    | nil => rfl
    | cons i l ih =>
      unfold collect_options_data at ih ⊢
      cases hgo : get_orderbook (fetch i) with
      | none =>
        simp only [List.filterMap_cons, hgo, List.filter_cons, fetchHasData]
        simpa [hgo] using ih
      | some ob =>
        cases htr : ob.truthy with
        | false =>
          simp only [List.filterMap_cons, hgo, List.filter_cons, fetchHasData]
          simpa [hgo, htr] using ih
        | true =>
          simp only [List.filterMap_cons, hgo, List.filter_cons, fetchHasData]
          simpa [hgo, htr, assembleRecord] using ih
  refine ⟨key, ?_⟩
  rw [key]
  exact (List.filter_sublist _).map _

/-- C5: for partitions of one currency, calendar order of the dates
coincides with lexicographic order of the partition file names, and
load_data reads partitions in exactly that ascending order: with no date
filter it concatenates the contents in sorted-file-name order, and the
date sequence of that enumeration is ascending. -/
theorem C5_name_date_order (c : String) (d1 d2 : DateYMD)
    (h1 : ValidDate d1) (h2 : ValidDate d2) :
    (dateLt d1 d2 ↔ get_daily_filename c d1 < get_daily_filename c d2) ∧
    (∀ store : List (DateYMD × List Record), (∀ p ∈ store, ValidDate p.1) →
      load_data c store none none =
        (store.mergeSort (fileLe c)).flatMap Prod.snd ∧
      List.Pairwise dateLe ((store.mergeSort (fileLe c)).map Prod.fst)) := by
  refine ⟨(get_daily_filename_lt_iff c h1 h2).symm, ?_⟩
  intro store hvalid
  constructor
  · unfold load_data keepFile
    simp
  · have htrans : ∀ a b c' : DateYMD × List Record, fileLe c a b = true →
        fileLe c b c' = true → fileLe c a c' = true := by
      intro a b c' hab hbc
      simp only [fileLe, decide_eq_true_eq] at hab hbc ⊢
      exact le_trans hab hbc
    have htotal : ∀ a b : DateYMD × List Record,
        (fileLe c a b || fileLe c b a) = true := by
      intro a b
      simp only [fileLe, Bool.or_eq_true, decide_eq_true_eq]
      exact le_total _ _
    have hsorted := List.sorted_mergeSort htrans htotal store
    rw [List.pairwise_map]
    refine List.Pairwise.imp_of_mem ?_ hsorted
    intro a b hma hmb hab
    have hva : ValidDate a.1 :=
      hvalid a ((List.mergeSort_perm store (fileLe c)).mem_iff.mp hma)
    have hvb : ValidDate b.1 :=
      hvalid b ((List.mergeSort_perm store (fileLe c)).mem_iff.mp hmb)
    have hle : get_daily_filename c a.1 ≤ get_daily_filename c b.1 := by
      simpa [fileLe, decide_eq_true_eq] using hab
    exact get_daily_filename_le_dateLe c hva hvb hle

/-- Witness for C5 at two concrete dates of the same currency. -/
theorem C5_name_date_order_witness :
    (dateLt ⟨2024, 1, 15⟩ ⟨2024, 3, 1⟩ ↔
      get_daily_filename "BTC" ⟨2024, 1, 15⟩ <
        get_daily_filename "BTC" ⟨2024, 3, 1⟩) ∧
    (∀ store : List (DateYMD × List Record), (∀ p ∈ store, ValidDate p.1) →
      load_data "BTC" store none none =
        (store.mergeSort (fileLe "BTC")).flatMap Prod.snd ∧
      List.Pairwise dateLe ((store.mergeSort (fileLe "BTC")).map Prod.fst)) :=
  C5_name_date_order "BTC" ⟨2024, 1, 15⟩ ⟨2024, 3, 1⟩ (by decide) (by decide)

/-- C6: load_data with a date range returns exactly the records of the
partitions whose date lies in the closed interval from start to end: the
result is a permutation of (and has the same membership as) the
concatenation of the in-range partition contents; a partition dated
exactly on the start or the end date is included; and an empty store, or
a store with no partition in range, yields the empty list, not an error. -/
theorem C6_load_date_range (c : String)
    (store : List (DateYMD × List Record)) (s e : DateYMD) :
    (load_data c store (some s) (some e)).Perm
      ((store.filter fun p =>
          decide (dateLe s p.1) && decide (dateLe p.1 e)).flatMap Prod.snd) ∧
    (∀ r : Record, r ∈ load_data c store (some s) (some e) ↔
      ∃ p ∈ store, dateLe s p.1 ∧ dateLe p.1 e ∧ r ∈ p.2) ∧
    (store = [] → load_data c store (some s) (some e) = []) ∧
    ((∀ p ∈ store, ¬ (dateLe s p.1 ∧ dateLe p.1 e)) →
      load_data c store (some s) (some e) = []) ∧
    (∀ p ∈ store, p.1 = s → dateLe s e → ∀ r ∈ p.2,
      r ∈ load_data c store (some s) (some e)) ∧
    (∀ p ∈ store, p.1 = e → dateLe s e → ∀ r ∈ p.2,
      r ∈ load_data c store (some s) (some e)) := by
  have hpred : (fun p : DateYMD × List Record => keepFile (some s) (some e) p.1)
      = fun p => decide (dateLe s p.1) && decide (dateLe p.1 e) := by
    funext p
    unfold keepFile dateLe
    simp
  have hperm : (load_data c store (some s) (some e)).Perm
      ((store.filter fun p =>
          decide (dateLe s p.1) && decide (dateLe p.1 e)).flatMap Prod.snd) := by
    unfold load_data
    rw [hpred]
    exact List.Perm.flatMap_right _
      ((List.mergeSort_perm store (fileLe c)).filter _)
  have hmem : ∀ r : Record, r ∈ load_data c store (some s) (some e) ↔
      ∃ p ∈ store, dateLe s p.1 ∧ dateLe p.1 e ∧ r ∈ p.2 := by
    intro r
    rw [hperm.mem_iff]
    simp only [List.mem_flatMap, List.mem_filter, Bool.and_eq_true,
      decide_eq_true_eq]
    constructor
    · rintro ⟨p, ⟨hp, hs, he⟩, hr⟩
      exact ⟨p, hp, hs, he, hr⟩
    · rintro ⟨p, hp, hs, he, hr⟩
      exact ⟨p, ⟨hp, hs, he⟩, hr⟩
  refine ⟨hperm, hmem, ?_, ?_, ?_, ?_⟩
  · rintro rfl
    have h0 := hperm
    simp only [List.filter_nil, List.flatMap_nil] at h0
    exact h0.eq_nil
  · intro hnone
    rw [List.eq_nil_iff_forall_not_mem]
    intro r hr
    obtain ⟨p, hp, hs, he, -⟩ := (hmem r).mp hr
    exact hnone p hp ⟨hs, he⟩
  · rintro p hp rfl hse r hr
    exact (hmem r).mpr ⟨p, hp, dateLe_refl _, hse, hr⟩
  · rintro p hp rfl hse r hr
    exact (hmem r).mpr ⟨p, hp, hse, dateLe_refl _, hr⟩

/-- Witness for C6: a single partition dated exactly on the start bound is
loaded, its record included in the result. -/
theorem C6_load_date_range_witness :
    sampleRecord ∈ load_data "BTC" [(⟨2024, 1, 15⟩, [sampleRecord])]
      (some ⟨2024, 1, 15⟩) (some ⟨2024, 2, 1⟩) :=
  ((C6_load_date_range "BTC" [(⟨2024, 1, 15⟩, [sampleRecord])]
      ⟨2024, 1, 15⟩ ⟨2024, 2, 1⟩).2.1 sampleRecord).mpr
    ⟨(⟨2024, 1, 15⟩, [sampleRecord]), by simp, by decide, by decide, by simp⟩

end Collector
